import Mathlib

/-!
Verification of the Bitrix client helper layer: the batch encoder/decoder
(`src/source/bitrix/client/methods/batch.ts`) and the list fetcher
(`src/unnamed/part_000`).

The embedding is shallow: TypeScript objects become association lists
(`List (String × _)`, JS object keys are pairwise distinct and
`Object.entries`/`Object.keys`/`Object.values` enumerate them in insertion
order), optional fields become `Option`, thrown JS errors become the
`.error` side of `Except`, and promise chains (`.then`) become `Except.bind`.
The injected HTTP capability `get` is a function argument; each execute
operation also returns the list of calls it made to `get`, so that
"zero network calls" and "one GET" are statable.
-/

/-- A JavaScript error value, as far as this layer can observe it:
a plain `Error` object carrying a message (everything this code throws is
`new Error(msg)`), a runtime `TypeError` (e.g. from `Object.values(undefined)`),
or any foreign value a collaborator may reject a promise with. -/
inductive JSError where
  | errorObj (msg : String)
  | typeError (msg : String)
  | foreign (code : Nat)
deriving DecidableEq, Repr

/-- Value of a command parameter: the `querystring` module stringifies
strings as themselves and numbers via their decimal representation. -/
inductive ParamValue where
  | str (s : String)
  | num (n : Int)
deriving DecidableEq, Repr

/-- Translation of `Command` from `../../types`: a method identifier plus an optional
parameter mapping. `params := none` models an absent/undefined field
(falsy in the `command.params ? _ : _` test), `params := some ps` models a
present object, which is truthy even when empty. -/
structure Command where
  method : String
  params : Option (List (String × ParamValue))
deriving DecidableEq, Repr

/-- Characters the Node `querystring.escape` function leaves unescaped:
ASCII alphanumerics plus minus, underscore, dot, bang, tilde, star,
apostrophe (char code 39) and the two parentheses. -/
def qsUnreserved (c : Char) : Bool :=
  (c.isAlpha && c.toNat < 128) || c.isDigit || c = Char.ofNat 45 ||
    c = Char.ofNat 95 || c = Char.ofNat 46 || c = Char.ofNat 33 ||
    c = Char.ofNat 126 || c = Char.ofNat 42 || c = Char.ofNat 39 ||
    c = Char.ofNat 40 || c = Char.ofNat 41

/-- The UTF-8 bytes of a character, as natural numbers below 256. -/
def utf8Bytes (c : Char) : List Nat :=
  let n := c.toNat
  if n < 128 then [n]
  else if n < 2048 then [192 + n / 64, 128 + n % 64]
  else if n < 65536 then [224 + n / 4096, 128 + (n / 64) % 64, 128 + n % 64]
  else [240 + n / 262144, 128 + (n / 4096) % 64, 128 + (n / 64) % 64, 128 + n % 64]

/-- One hex digit, uppercase. -/
def hexDigit (n : Nat) : Char :=
  if n < 10 then Char.ofNat (48 + n) else Char.ofNat (55 + n)

/-- A byte as two uppercase hex digits. -/
def byteToHex (b : Nat) : String :=
  String.mk [hexDigit (b / 16), hexDigit (b % 16)]

/-- Percent-encoding of one character, per the Node `querystring.escape`
function. -/
def qsEscapeChar (c : Char) : String :=
  if qsUnreserved c then String.mk [c]
  else String.join ((utf8Bytes c).map (fun b => "%" ++ byteToHex b))

/-- The Node `querystring.escape` function: percent-encode every character
outside the unreserved set, byte by byte of its UTF-8 encoding. -/
def qsEscape (s : String) : String :=
  String.join (s.data.map qsEscapeChar)

/-- The `querystring` stringification of a primitive parameter value. -/
def stringifyPrimitive : ParamValue → String
  | .str s => s
  | .num n => toString n

/-- The Node `querystring.stringify` function (imported as `stringifyQuery` in
`batch.ts`): `escape(key)=escape(value)` pairs joined with ampersands; the
empty object stringifies to the empty string. -/
def stringifyQuery (params : List (String × ParamValue)) : String :=
  String.intercalate "&" (params.map (fun p => qsEscape p.1 ++ "=" ++ qsEscape (stringifyPrimitive p.2)))

/-- Translation of `MAX_COMMANDS_PER_BATCH` from `batch.ts`. -/
def MAX_COMMANDS_PER_BATCH : Nat := 50

/-- The JS object-spread update `\x7b...queries, [key]: value\x7d`: if `key` is
already present its value is replaced in place, otherwise the entry is
appended. -/
def objInsert (queries : List (String × String)) (key value : String) : List (String × String) :=
  if queries.any (fun p => p.1 = key) then
    queries.map (fun p => if p.1 = key then (key, value) else p)
  else queries ++ [(key, value)]

/-- The reducer body of `commandsToBatchQuery`: one entry `(cmdName, command)`
joins the accumulated queries under key `cmd[<cmdName>]` with value
`command.method` followed by `?<stringified params>` exactly when
`command.params` is truthy (a present object, even an empty one). -/
def batchQueryStep (queries : List (String × String)) (entry : String × Command) :
    List (String × String) :=
  let stringifiedParams :=
    match entry.2.params with
    | some ps => "?" ++ stringifyQuery ps
    | none => ""
  objInsert queries ("cmd[" ++ entry.1 ++ "]") (entry.2.method ++ stringifiedParams)

/-- Translation of `commandsToBatchQuery` from `batch.ts`: `Object.entries(commands)`
reduced by `batchQueryStep` starting from the empty object. -/
def commandsToBatchQuery (commands : List (String × Command)) : List (String × String) :=
  commands.foldl batchQueryStep []

/-- The commands argument as it crosses the JS call boundary: either absent
(`undefined`) or an object. -/
inductive CommandsArg where
  | undef
  | obj (entries : List (String × Command))
deriving DecidableEq, Repr

/-- The encoder `commandsToBatchQuery` applied at the JS runtime level:
`Object.entries(undefined)` throws a `TypeError`, an object is enumerated
as usual. -/
def commandsToBatchQueryJS : CommandsArg → Except JSError (List (String × String))
  | .undef => .error (.typeError "Cannot convert undefined or null to object")
  | .obj commands => .ok (commandsToBatchQuery commands)

/-- The runtime value of the `result_error` field of a batch response:
a JS array of error strings, a name-keyed object of error strings, or the
absent/undefined and null cases. -/
inductive ResultErrorField where
  | arr (errors : List String)
  | obj (entries : List (String × String))
  | undef
  | nullV
deriving DecidableEq, Repr

/-- Modelled from the spec: `utils/isArray` (imported by `batch.ts` but not
under `src/`) is an array-kind check, per the spec sentence "if it is keyed
by command name (a mapping) it is converted to its value sequence,
otherwise used as-is". -/
def isArray : ResultErrorField → Bool
  | .arr _ => true
  | _ => false

/-- The array elements of a `result_error` value; only consulted when
`isArray` holds, so the non-array cases are irrelevant. -/
def arrayElems : ResultErrorField → List String
  | .arr errors => errors
  | _ => []

/-- JS `Object.values`: the values of an object in insertion order (an
array yields its elements); applied to `undefined` or `null` it throws a
`TypeError`. -/
def objectValues : ResultErrorField → Except JSError (List String)
  | .arr errors => .ok errors
  | .obj entries => .ok (entries.map Prod.snd)
  | .undef => .error (.typeError "Cannot convert undefined or null to object")
  | .nullV => .error (.typeError "Cannot convert undefined or null to object")

/-- The ternary `isArray(resultErrors) ? resultErrors : Object.values(resultErrors)`
from `handleBatchPayload`. -/
def deriveErrors (resultErrors : ResultErrorField) : Except JSError (List String) :=
  if isArray resultErrors then .ok (arrayElems resultErrors) else objectValues resultErrors

/-- Translation of `BatchPayload<C>` from `../../types`, to the extent `batch.ts` observes
it: a `result` object whose `result_error` field carries per-command errors;
`resultData` stands for the per-command results the code passes through
untouched. -/
structure BatchResult (C : Type) where
  resultData : C
  result_error : ResultErrorField
deriving DecidableEq, Repr

/-- The batch response body. -/
structure BatchPayload (C : Type) where
  result : BatchResult C
deriving DecidableEq, Repr

/-- Translation of `handleBatchPayload` from `batch.ts`: derive the error sequence from
`payload.result.result_error`; if it is non-empty, throw an `Error` whose
message carries the count and the messages joined with newlines; otherwise
return the payload unchanged. -/
def handleBatchPayload {C : Type} (payload : BatchPayload C) : Except JSError (BatchPayload C) :=
  (deriveErrors payload.result.result_error).bind fun errors =>
    if errors.length > 0 then
      .error (.errorObj ("[batch] failed to process. Received errors in " ++
        toString errors.length ++ " commands:\n" ++ String.intercalate "\n" errors))
    else
      .ok payload

/-- Modelled from the spec: `Method.BATCH` (from `../../types`, not under
`src/`) identifies the batch endpoint; its concrete route string is
irrelevant to every claim. -/
def Method.BATCH : String := "batch"

/-- The `query` option handed to the HTTP capability: absent, an object, or
a pre-encoded string. -/
inductive Query where
  | undef
  | obj (entries : List (String × String))
  | str (s : String)
deriving DecidableEq, Repr

/-- One invocation of the injected HTTP `get` capability: the method path
and the query option. -/
structure GetCall where
  method : String
  query : Query
deriving DecidableEq, Repr

/-- The batch execute operation returned by the default export of
`batch.ts`, with the injected `get` capability as an oracle from calls to
outcomes. Alongside the promise outcome it returns the list of calls made
to `get`: over the cap the function throws before any call; otherwise it
issues exactly one GET to the batch endpoint with the encoded query and
pipes the body through `handleBatchPayload`. -/
def batchExecute {C : Type} (get : GetCall → Except JSError (BatchPayload C))
    (commands : List (String × Command)) :
    Except JSError (BatchPayload C) × List GetCall :=
  let commandsAmount := commands.length
  if commandsAmount > MAX_COMMANDS_PER_BATCH then
    (.error (.errorObj ("[batch] failed to process. Received " ++ toString commandsAmount ++
      " commands, but maximum " ++ toString MAX_COMMANDS_PER_BATCH ++ " allowed")), [])
  else
    let call : GetCall := ⟨Method.BATCH, Query.obj (commandsToBatchQuery commands)⟩
    ((get call).bind handleBatchPayload, [call])

/-- Translation of `ListPayload<P>` from `../../types`, to the extent the list fetcher
observes it: a result value plus an optional `error` message (`none` models
an absent/undefined field). -/
structure ListPayload (P : Type) where
  result : P
  error : Option String
deriving DecidableEq, Repr

/-- Whether an optional string field is truthy in JS: present and not the
empty string. -/
def truthyStr : Option String → Bool
  | none => false
  | some s => s ≠ ""

/-- Translation of `handleGetListPayload` from the list fetcher: if `payload.error` is
truthy, throw an `Error` embedding that message, otherwise return the
payload unchanged. -/
def handleGetListPayload {P : Type} (payload : ListPayload P) : Except JSError (ListPayload P) :=
  if truthyStr payload.error then
    .error (.errorObj ("[get] failed to get the resource: " ++
      (payload.error.getD "") ++ "."))
  else
    .ok payload

/-- The list execute operation returned by the default export of the list
fetcher: one GET to the given method with the query passed through
unchanged, then `handleGetListPayload` on the body. -/
def getList {P : Type} (get : GetCall → Except JSError (ListPayload P))
    (method : String) (query : Query) :
    Except JSError (ListPayload P) × List GetCall :=
  let call : GetCall := ⟨method, query⟩
  ((get call).bind handleGetListPayload, [call])

/-- The single query entry contributed by one `(cmdName, command)` entry of
the commands mapping; `commandsToBatchQuery` is shown below to be `map entryOf`
on name-distinct inputs. -/
def entryOf (entry : String × Command) : String × String :=
  ("cmd[" ++ entry.1 ++ "]",
    entry.2.method ++
      match entry.2.params with
      | some ps => "?" ++ stringifyQuery ps
      | none => "")

/-! ### Shared helper lemmas -/

theorem string_append_empty (s : String) : s ++ "" = s := by
  apply String.ext
  simp [String.data_append]

theorem cmdKey_inj {a b : String} (h : "cmd[" ++ a ++ "]" = "cmd[" ++ b ++ "]") : a = b := by
  have h2 := congrArg String.data h
  simp only [String.data_append] at h2
  have h3 := List.append_cancel_right h2
  have h4 := List.append_cancel_left h3
  exact String.ext h4

theorem batchQueryStep_fresh (queries : List (String × String)) (entry : String × Command)
    (h : ∀ q ∈ queries, q.1 ≠ (entryOf entry).1) :
    batchQueryStep queries entry = queries ++ [entryOf entry] := by
  have hstep : batchQueryStep queries entry =
      objInsert queries (entryOf entry).1 (entryOf entry).2 := rfl
  rw [hstep, objInsert]
  have hany : queries.any (fun p => p.1 = (entryOf entry).1) = false := by
    simp only [List.any_eq_false, decide_eq_true_eq]
    exact h
  simp [hany]

theorem foldl_batchQueryStep (commands : List (String × Command)) :
    ∀ acc : List (String × String),
      (∀ q ∈ acc, ∀ e ∈ commands, q.1 ≠ (entryOf e).1) →
      (commands.map Prod.fst).Nodup →
      commands.foldl batchQueryStep acc = acc ++ commands.map entryOf := by
  induction commands with
  | nil =>
    intro acc _ _
    simp
  | cons head tail ih =>
    intro acc hdisj hnodup
    have hnodup' : head.1 ∉ tail.map Prod.fst ∧ (tail.map Prod.fst).Nodup := by
      rw [List.map_cons] at hnodup
      exact List.nodup_cons.mp hnodup
    rw [List.foldl_cons,
      batchQueryStep_fresh acc head (fun q hq => hdisj q hq head (List.mem_cons_self _ _)),
      ih (acc ++ [entryOf head]) ?_ hnodup'.2]
    · simp
    · intro q hq e he
      rcases List.mem_append.mp hq with hmem | hmem
      · exact hdisj q hmem e (List.mem_cons_of_mem _ he)
      · have hq' : q = entryOf head := by simpa using hmem
        subst hq'
        intro hkey
        have hnames : head.1 = e.1 := cmdKey_inj hkey
        exact hnodup'.1 (hnames ▸ List.mem_map_of_mem Prod.fst he)

theorem commandsToBatchQuery_eq_map (commands : List (String × Command))
    (h : (commands.map Prod.fst).Nodup) :
    commandsToBatchQuery commands = commands.map entryOf := by
  have hfold := foldl_batchQueryStep commands [] (by simp) h
  simpa [commandsToBatchQuery] using hfold

/-! ### Witness fixtures: concrete oracles and inputs -/

/-- A concrete two-command mapping with distinct names. -/
def cmdsEx : List (String × Command) :=
  [("deal", Command.mk "crm.deal.list" none),
   ("lead", Command.mk "crm.lead.get" (some [("ID", ParamValue.num 11)]))]

/-- The same two commands in the opposite insertion order. -/
def cmdsExSwapped : List (String × Command) :=
  [("lead", Command.mk "crm.lead.get" (some [("ID", ParamValue.num 11)])),
   ("deal", Command.mk "crm.deal.list" none)]

/-! ### Claims about the encoder -/

/-- Claim C3: for every commands mapping (association list with the distinct
names a JS object guarantees) with `n` entries, `commandsToBatchQuery`
produces exactly `n` query entries; the entry for `(name, command)` is keyed
`cmd[<name>]`, its value is `<method>?<url-encoded-params>` when the command
carries parameters and exactly `<method>` (no trailing question mark) when it
does not. -/
theorem claim_C3_encode_shape (commands : List (String × Command))
    (h : (commands.map Prod.fst).Nodup) :
    (commandsToBatchQuery commands).length = commands.length ∧
    commandsToBatchQuery commands = commands.map (fun entry =>
      ("cmd[" ++ entry.1 ++ "]",
        match entry.2.params with
        | some ps => entry.2.method ++ "?" ++ stringifyQuery ps
        | none => entry.2.method)) := by
  have hmap := commandsToBatchQuery_eq_map commands h
  refine ⟨by rw [hmap, List.length_map], ?_⟩
  rw [hmap]
  apply List.map_congr_left
  intro e _
  unfold entryOf
  cases hp : e.2.params with
  | none => simp [hp, string_append_empty]
  | some ps => simp [hp, String.append_assoc]

/-- Witness for C3 at a concrete two-command mapping: the encoder emits two
entries, one per command, with and without the parameter suffix. -/
theorem claim_C3_encode_shape_witness :
    commandsToBatchQuery cmdsEx =
      [("cmd[deal]", "crm.deal.list"), ("cmd[lead]", "crm.lead.get?ID=11")] := by
  have h := claim_C3_encode_shape cmdsEx (by decide)
  exact h.2.trans (by decide)

/-- Claim C8: the encoder is deterministic: the same input yields the same
output, and two inputs equal as mappings (permutations of the same
name-distinct entries) yield outputs equal as mappings (permutations of each
other), so key order may vary while the mapping content matches. -/
theorem claim_C8_encode_deterministic (c1 c2 : List (String × Command))
    (h1 : (c1.map Prod.fst).Nodup) (hperm : List.Perm c1 c2) :
    commandsToBatchQuery c1 = commandsToBatchQuery c1 ∧
    List.Perm (commandsToBatchQuery c1) (commandsToBatchQuery c2) := by
  refine ⟨rfl, ?_⟩
  have h2 : (c2.map Prod.fst).Nodup := ((hperm.map Prod.fst).nodup_iff).mp h1
  rw [commandsToBatchQuery_eq_map c1 h1, commandsToBatchQuery_eq_map c2 h2]
  exact hperm.map entryOf

/-- Witness for C8 at the concrete mapping and its reordering. -/
theorem claim_C8_encode_deterministic_witness :
    commandsToBatchQuery cmdsEx = commandsToBatchQuery cmdsEx ∧
    List.Perm (commandsToBatchQuery cmdsEx) (commandsToBatchQuery cmdsExSwapped) :=
  claim_C8_encode_deterministic cmdsEx cmdsExSwapped (by decide) (by decide)

/-- Claim C9: a command whose `params` field is a present but empty mapping
encodes to `<method>?` with a trailing question mark (the empty object is
truthy and stringifies to the empty string), which differs from the value
`<method>` produced when the `params` field is absent. -/
theorem claim_C9_empty_params_object (name m : String) :
    commandsToBatchQuery [(name, Command.mk m (some []))] =
      [("cmd[" ++ name ++ "]", m ++ "?")] ∧
    commandsToBatchQuery [(name, Command.mk m none)] =
      [("cmd[" ++ name ++ "]", m)] ∧
    m ++ "?" ≠ m := by
  have hinter : String.intercalate "&" ([] : List String) = "" := rfl
  refine ⟨?_, ?_, ?_⟩
  · simp [commandsToBatchQuery, batchQueryStep, objInsert, stringifyQuery, hinter,
      string_append_empty]
  · simp [commandsToBatchQuery, batchQueryStep, objInsert, string_append_empty]
  · intro heq
    have hlen := congrArg String.length heq
    rw [String.length_append] at hlen
    have hq : ("?" : String).length = 1 := rfl
    omega

/-- Claim C7 counterexample: the absent (`undefined`) commands argument does
not yield a successful empty encoding — `Object.entries(undefined)` throws,
so the "absent" shape of no-commands input fails rather than encoding to
zero query parameters. -/
theorem claim_C7_counterexample :
    ¬ ∃ queries, commandsToBatchQueryJS CommandsArg.undef = Except.ok queries := by
  rintro ⟨queries, h⟩
  simp [commandsToBatchQueryJS] at h

/-- Claim C7 as amended: the empty-mapping shape of "no commands" yields zero
encoded query parameters and succeeds, while the absent (`undefined`) shape
makes the encoder throw a `TypeError` from `Object.entries`. -/
theorem claim_C7_amended_no_commands :
    commandsToBatchQueryJS (CommandsArg.obj []) = Except.ok [] ∧
    commandsToBatchQueryJS CommandsArg.undef =
      Except.error (JSError.typeError "Cannot convert undefined or null to object") :=
  ⟨rfl, rfl⟩

/-! ### Claims about the batch payload validation -/

/-- Claim C2: whenever the derived sequence of error messages of a batch
payload is non-empty, `handleBatchPayload` throws the batch-command `Error`
whose message carries the error count and all individual error strings
joined with newlines; whenever that sequence is empty it returns the payload
unchanged — so it raises if and only if the sequence is non-empty. -/
theorem claim_C2_batch_errors {C : Type} (payload : BatchPayload C) (errors : List String)
    (h : deriveErrors payload.result.result_error = Except.ok errors) :
    (errors ≠ [] →
      handleBatchPayload payload =
        Except.error (JSError.errorObj ("[batch] failed to process. Received errors in " ++
          toString errors.length ++ " commands:\n" ++ String.intercalate "\n" errors))) ∧
    (errors = [] → handleBatchPayload payload = Except.ok payload) := by
  constructor
  · intro hne
    have hlen : errors.length > 0 := List.length_pos.mpr hne
    simp [handleBatchPayload, h, Except.bind, hlen]
  · intro he
    subst he
    simp [handleBatchPayload, h, Except.bind]

/-- A concrete batch payload whose `result_error` is the array
`["bad ID"]`. -/
def badBatchPayload : BatchPayload Nat :=
  ⟨⟨0, ResultErrorField.arr ["bad ID"]⟩⟩

/-- Witness for C2: the payload with `result_error = ["bad ID"]` fails with
the message naming 1 commands and containing "bad ID". -/
theorem claim_C2_batch_errors_witness :
    handleBatchPayload badBatchPayload =
      Except.error (JSError.errorObj
        "[batch] failed to process. Received errors in 1 commands:\nbad ID") := by
  have h := (claim_C2_batch_errors badBatchPayload ["bad ID"] rfl).1 (by decide)
  exact h.trans rfl

/-- Claim C4: a batch payload whose `result.result_error` is either the empty
array or the empty name-keyed mapping passes validation unchanged; in general
a mapping-shaped `result_error` is converted to its value sequence while an
array-shaped one is used as-is, so both wire shapes for "no errors" are
accepted. -/
theorem claim_C4_no_errors {C : Type} (payload : BatchPayload C)
    (h : payload.result.result_error = ResultErrorField.arr [] ∨
      payload.result.result_error = ResultErrorField.obj []) :
    handleBatchPayload payload = Except.ok payload ∧
    (∀ entries : List (String × String),
      deriveErrors (ResultErrorField.obj entries) = Except.ok (entries.map Prod.snd)) ∧
    (∀ errors : List String,
      deriveErrors (ResultErrorField.arr errors) = Except.ok errors) := by
  refine ⟨?_, fun entries => rfl, fun errors => rfl⟩
  rcases h with h | h <;>
    simp [handleBatchPayload, deriveErrors, isArray, arrayElems, objectValues, h, Except.bind]

/-- A concrete batch payload whose `result_error` is the empty mapping. -/
def emptyObjBatchPayload : BatchPayload Nat :=
  ⟨⟨7, ResultErrorField.obj []⟩⟩

/-- Witness for C4: the payload with `result_error = \x7b\x7d` is returned
unchanged. -/
theorem claim_C4_no_errors_witness :
    handleBatchPayload emptyObjBatchPayload = Except.ok emptyObjBatchPayload :=
  (claim_C4_no_errors emptyObjBatchPayload (Or.inr rfl)).1

/-- Claim C10: on a batch payload whose `result.result_error` is absent
(`undefined`) or `null`, `handleBatchPayload` throws the runtime `TypeError`
from `Object.values` rather than a batch-command `Error`: validation is total
only over array- or object-shaped `result_error` fields. -/
theorem claim_C10_missing_result_error {C : Type} (payload : BatchPayload C)
    (h : payload.result.result_error = ResultErrorField.undef ∨
      payload.result.result_error = ResultErrorField.nullV) :
    handleBatchPayload payload =
      Except.error (JSError.typeError "Cannot convert undefined or null to object") ∧
    ∀ msg, handleBatchPayload payload ≠ Except.error (JSError.errorObj msg) := by
  have hderive : deriveErrors payload.result.result_error =
      Except.error (JSError.typeError "Cannot convert undefined or null to object") := by
    rcases h with h | h <;> simp [deriveErrors, isArray, objectValues, h]
  refine ⟨?_, ?_⟩
  · simp [handleBatchPayload, hderive, Except.bind]
  · intro msg
    simp [handleBatchPayload, hderive, Except.bind]

/-- A concrete batch payload with no `result_error` field. -/
def undefBatchPayload : BatchPayload Nat :=
  ⟨⟨3, ResultErrorField.undef⟩⟩

/-- Witness for C10: the payload without `result_error` makes validation
throw the `TypeError`, which is not a batch-command `Error` message. -/
theorem claim_C10_missing_result_error_witness :
    handleBatchPayload undefBatchPayload =
      Except.error (JSError.typeError "Cannot convert undefined or null to object") ∧
    ∀ msg, handleBatchPayload undefBatchPayload ≠ Except.error (JSError.errorObj msg) :=
  claim_C10_missing_result_error undefBatchPayload (Or.inl rfl)

/-! ### Claims about the execute operations -/

/-- Claim C1: a commands mapping with more than `MAX_COMMANDS_PER_BATCH`
entries makes batch execute fail with the too-many-commands `Error` whose
message carries the actual count and the limit, with zero calls to the
injected `get` capability; a mapping at or under the cap passes the size
check and issues exactly one GET to the batch endpoint with the encoded
query, the outcome being the validated response body. -/
theorem claim_C1_batch_size_limit {C : Type} (get : GetCall → Except JSError (BatchPayload C))
    (commands : List (String × Command)) :
    (commands.length > MAX_COMMANDS_PER_BATCH →
      batchExecute get commands =
        (Except.error (JSError.errorObj ("[batch] failed to process. Received " ++
          toString commands.length ++ " commands, but maximum " ++
          toString MAX_COMMANDS_PER_BATCH ++ " allowed")), [])) ∧
    (commands.length ≤ MAX_COMMANDS_PER_BATCH →
      batchExecute get commands =
        ((get ⟨Method.BATCH, Query.obj (commandsToBatchQuery commands)⟩).bind handleBatchPayload,
         [⟨Method.BATCH, Query.obj (commandsToBatchQuery commands)⟩])) := by
  constructor
  · intro h
    simp [batchExecute, h]
  · intro h
    have hnot : ¬ commands.length > MAX_COMMANDS_PER_BATCH := Nat.not_lt.mpr h
    simp [batchExecute, hnot]

/-- An HTTP oracle for batch calls that always resolves with an error-free
body. -/
def getOkB : GetCall → Except JSError (BatchPayload Nat) :=
  fun _ => Except.ok ⟨⟨0, ResultErrorField.arr []⟩⟩

/-- A 51-command mapping with distinct names. -/
def cmds51 : List (String × Command) :=
  (List.range 51).map (fun i => ("c" ++ toString i, Command.mk "m" none))

/-- Witness for C1: 51 commands fail before any call with the exact message;
the two-command mapping issues exactly one GET. -/
theorem claim_C1_batch_size_limit_witness :
    batchExecute getOkB cmds51 =
      (Except.error (JSError.errorObj ("[batch] failed to process. Received " ++
        toString cmds51.length ++ " commands, but maximum " ++
        toString MAX_COMMANDS_PER_BATCH ++ " allowed")), []) ∧
    batchExecute getOkB cmdsEx =
      ((getOkB ⟨Method.BATCH, Query.obj (commandsToBatchQuery cmdsEx)⟩).bind handleBatchPayload,
       [⟨Method.BATCH, Query.obj (commandsToBatchQuery cmdsEx)⟩]) :=
  ⟨(claim_C1_batch_size_limit getOkB cmds51).1
      (by simp [cmds51, MAX_COMMANDS_PER_BATCH]),
   (claim_C1_batch_size_limit getOkB cmdsEx).2 (by decide)⟩

/-- Claim C5: the list execute operation hands the method and the optional
query argument through unchanged in its single GET to the injected
capability; when the `error` field of the decoded body is present and truthy it
fails with the resource-fetch `Error` embedding that message, and when the
field is absent or falsy it resolves with the payload unchanged. -/
theorem claim_C5_getList {P : Type} (get : GetCall → Except JSError (ListPayload P))
    (method : String) (query : Query) (payload : ListPayload P)
    (hget : get ⟨method, query⟩ = Except.ok payload) :
    (getList get method query).2 = [⟨method, query⟩] ∧
    (∀ e, payload.error = some e → e ≠ "" →
      (getList get method query).1 =
        Except.error (JSError.errorObj ("[get] failed to get the resource: " ++ e ++ "."))) ∧
    ((payload.error = none ∨ payload.error = some "") →
      (getList get method query).1 = Except.ok payload) := by
  refine ⟨rfl, ?_, ?_⟩
  · intro e he hne
    simp [getList, hget, Except.bind, handleGetListPayload, truthyStr, he, hne]
  · intro h
    rcases h with h | h <;>
      simp [getList, hget, Except.bind, handleGetListPayload, truthyStr, h]

/-- An HTTP oracle for list calls that resolves with a body whose `error`
field is "not found". -/
def getNotFoundL : GetCall → Except JSError (ListPayload Nat) :=
  fun _ => Except.ok ⟨0, some "not found"⟩

/-- An HTTP oracle for list calls that resolves with a body without an
`error` field. -/
def getOkL : GetCall → Except JSError (ListPayload Nat) :=
  fun _ => Except.ok ⟨0, none⟩

/-- Witness for C5: the "not found" body fails with the embedding message and
the pre-encoded string query is handed through; the error-free body resolves
unchanged. -/
theorem claim_C5_getList_witness :
    (getList getNotFoundL "crm.deal.list" (Query.str "ID=1")).1 =
      Except.error (JSError.errorObj "[get] failed to get the resource: not found.") ∧
    (getList getNotFoundL "crm.deal.list" (Query.str "ID=1")).2 =
      [⟨"crm.deal.list", Query.str "ID=1"⟩] ∧
    (getList getOkL "crm.deal.list" Query.undef).1 = Except.ok ⟨0, none⟩ := by
  have h := claim_C5_getList getNotFoundL "crm.deal.list" (Query.str "ID=1")
    ⟨0, some "not found"⟩ rfl
  have h2 := claim_C5_getList getOkL "crm.deal.list" Query.undef ⟨0, none⟩ rfl
  exact ⟨(h.2.1 "not found" rfl (by decide)).trans rfl, h.1, h2.2.2 (Or.inl rfl)⟩

/-- Claim C6: an error with which the injected `get` capability rejects is
the very value with which both the batch execute operation (when the size
check passes) and the list execute operation reject — transport failures are
neither caught nor rewrapped by this layer. -/
theorem claim_C6_transport {C P : Type} (e : JSError)
    (getB : GetCall → Except JSError (BatchPayload C))
    (getL : GetCall → Except JSError (ListPayload P))
    (commands : List (String × Command)) (method : String) (query : Query)
    (hlen : commands.length ≤ MAX_COMMANDS_PER_BATCH)
    (hB : getB ⟨Method.BATCH, Query.obj (commandsToBatchQuery commands)⟩ = Except.error e)
    (hL : getL ⟨method, query⟩ = Except.error e) :
    (batchExecute getB commands).1 = Except.error e ∧
    (getList getL method query).1 = Except.error e := by
  have hnot : ¬ commands.length > MAX_COMMANDS_PER_BATCH := Nat.not_lt.mpr hlen
  constructor
  · simp [batchExecute, hnot, hB, Except.bind]
  · simp [getList, hL, Except.bind]

/-- An HTTP oracle for batch calls that rejects with a foreign transport
error. -/
def getRejectB : GetCall → Except JSError (BatchPayload Nat) :=
  fun _ => Except.error (JSError.foreign 7)

/-- An HTTP oracle for list calls that rejects with the same foreign
transport error. -/
def getRejectL : GetCall → Except JSError (ListPayload Nat) :=
  fun _ => Except.error (JSError.foreign 7)

/-- Witness for C6: the foreign rejection value 7 comes back verbatim from
both execute operations. -/
theorem claim_C6_transport_witness :
    (batchExecute getRejectB cmdsEx).1 = Except.error (JSError.foreign 7) ∧
    (getList getRejectL "crm.deal.list" Query.undef).1 =
      Except.error (JSError.foreign 7) :=
  claim_C6_transport (JSError.foreign 7) getRejectB getRejectL cmdsEx
    "crm.deal.list" Query.undef (by decide) rfl rfl
